import Mathlib

/-!
Verification development for the directory word-count utility `wordmmm.py`.

The program is embedded shallowly:

* the filesystem is an explicit value: the outcome of `os.listdir` is a
  `ListDirResult`, each listed entry carries its node type (so that the
  `os.path.isfile` test can be evaluated) and the outcome of opening and
  reading it as UTF-8 text;
* printing is modelled as an accumulated list of `OutLine` values, one
  constructor per `print` statement of the program (the exact textual
  formatting, e.g. the `.2f` rendering of the mean, is abstracted: each
  line keeps its payload as data);
* the `statistics` library calls are embedded following the semantics of
  the current CPython standard library (Python >= 3.8): exact rational
  arithmetic is modelled with `Rat`, `sorted` with a stable structural
  sort, and `statistics.mode` with the `Counter.most_common(1)` rule
  (maximal multiplicity, ties broken towards the value occurring first),
  which raises `StatisticsError` only on empty data.
-/

/-- CPython's `Py_UNICODE_ISSPACE` set: the characters on which `str.split()`
with no separator splits, and which `str.strip()` removes. -/
def isPySpace (c : Char) : Bool :=
  let n := c.toNat
  (9 ≤ n && n ≤ 13) || n == 32 || (28 ≤ n && n ≤ 31) || n == 0x85 || n == 0xa0 ||
    n == 0x1680 || (0x2000 ≤ n && n ≤ 0x200a) || n == 0x2028 || n == 0x2029 ||
    n == 0x202f || n == 0x205f || n == 0x3000

/-- Embedding of Python's `text.split()` (no separator): the list of maximal
runs of non-whitespace characters, empty runs discarded. -/
def splitWs : List Char → List (List Char)
  | [] => []
  | c :: cs =>
    if isPySpace c then splitWs cs
    else
      match cs, splitWs cs with
      | [], _ => [[c]]
      | d :: _, rest =>
        if isPySpace d then [c] :: rest
        else
          match rest with
          | [] => [[c]]
          | w :: ws => (c :: w) :: ws

/-- Modelled from the spec: "a maximal run of non-whitespace characters";
`countRunsAux inWord s` counts the runs of non-whitespace characters that
start inside `s`, where `inWord` records whether `s` is preceded by a
non-whitespace character. -/
def countRunsAux : Bool → List Char → Nat
  | _, [] => 0
  | inWord, c :: cs =>
    if isPySpace c then countRunsAux false cs
    else (if inWord then 0 else 1) + countRunsAux true cs

/-- Modelled from the spec: the number of maximal runs of non-whitespace
characters of a text. -/
def countRuns (s : List Char) : Nat := countRunsAux false s

/-- Node type of a directory entry, as far as `os.path.isfile` can observe:
a symlink records the node it resolves to in one step, `brokenLink` is a
dangling symlink. -/
inductive FileNode
  | regular
  | directory
  | device
  | brokenLink
  | symlink (target : FileNode)
deriving DecidableEq

/-- Embedding of `os.path.isfile`: true exactly for a regular file or a chain
of symbolic links ending at a regular file (`os.path.isfile` follows
symbolic links). -/
def os_path_isfile : FileNode → Bool
  | .regular => true
  | .symlink t => os_path_isfile t
  | _ => false

/-- Outcome of opening a path and reading it as UTF-8 text: the decoded text,
or the description of the raised `OSError` / `UnicodeDecodeError`. -/
inductive ReadResult
  | ok (text : String)
  | err (desc : String)
deriving DecidableEq

/-- One entry of a directory listing: its name (a basename as returned by
`os.listdir`, hence never containing a path separator), its node type, and
what reading it would yield. -/
structure Entry where
  name : String
  node : FileNode
  readResult : ReadResult
deriving DecidableEq

/-- Outcome of `os.listdir(directory)`: the entries, or the description of the
raised `OSError` (path missing, not a directory, permission denied, ...). -/
inductive ListDirResult
  | ok (entries : List Entry)
  | err (desc : String)

/-- Value printed on the mode line: a count value, or the `"No unique mode"`
marker. -/
inductive ModeOut
  | value (n : Nat)
  | noUnique
deriving DecidableEq

/-- One printed line of the program, one constructor per `print` statement;
the textual formatting is abstracted, the payload is kept as data. -/
inductive OutLine
  | errorLine (path desc : String)
  | noFilesLine
  | perFileHeader
  | perFileLine (name : String) (count : Nat)
  | summaryHeader
  | totalLine (n : Nat)
  | meanLine (m : Rat)
  | medianLine (m : Rat)
  | modeLine (m : ModeOut)
deriving DecidableEq

/-- Observable outcome of `analyze_directory_word_counts`: an uncaught
exception propagating to the caller, the early return after
`No readable files found.`, or a completed report with the data of its
summary. -/
inductive AnalyzeResult
  | raised (desc : String)
  | noFiles
  | report (fileMap : List (String × Nat)) (total : Nat)
      (mean : Rat) (median : Rat) (mode : ModeOut)
deriving DecidableEq

/-- Embedding of `posixpath.join(dir, name)` for a `name` produced by
`os.listdir`: such a name is a basename, never empty, absolute or containing
a separator, so only the relative branches of `os.path.join` are reachable. -/
def ospath_join (dir name : String) : String :=
  if dir = "" then name
  else if dir.endsWith "/" then dir ++ name
  else dir ++ "/" ++ name

/-- Embedding of `count_words_in_file(filepath)`: on a successful read,
`len(text.split())` and no output; on a raised exception, the
`Error reading <path>: <desc>` line and the value 0. -/
def count_words_in_file (filepath : String) (e : Entry) : Nat × List OutLine :=
  match e.readResult with
  | .ok text => ((splitWs text.data).length, [])
  | .err desc => (0, [OutLine.errorLine filepath desc])

/-- State of the enumeration loop: the ordered `word_counts` list, the
`file_word_map` dict, and the lines printed so far. -/
structure LoopState where
  word_counts : List Nat
  file_word_map : List (String × Nat)
  outLines : List OutLine

/-- Embedding of a Python dict assignment `m[k] = v` on a dict represented as
its key-value pairs in insertion order: an existing key keeps its position
and gets the new value, a fresh key is appended. -/
def dictInsert (m : List (String × Nat)) (k : String) (v : Nat) :
    List (String × Nat) :=
  if m.any (fun p => p.1 == k) then
    m.map (fun p => if p.1 == k then (k, v) else p)
  else m ++ [(k, v)]

/-- One iteration of the loop of `analyze_directory_word_counts`: entries
passing `os.path.isfile` are counted and recorded, all others are skipped. -/
def processEntry (dir : String) (st : LoopState) (e : Entry) : LoopState :=
  if os_path_isfile e.node then
    let r := count_words_in_file (ospath_join dir e.name) e
    { word_counts := st.word_counts ++ [r.1]
      file_word_map := dictInsert st.file_word_map e.name r.1
      outLines := st.outLines ++ r.2 }
  else st

/-- The whole enumeration loop, started from the empty state. -/
def runLoop (dir : String) (entries : List Entry) : LoopState :=
  entries.foldl (processEntry dir) ⟨[], [], []⟩

/-- Embedding of `statistics.mean` on integer data: the exact value
`sum / n` (the library computes this exactly as a fraction before its final
conversion). -/
def pyMean (l : List Nat) : Rat := (l.sum : Rat) / (l.length : Rat)

/-- Embedding of Python's `sorted` on integer data: a stable sort; modelled
with insertion sort, extensionally equal on a total order. -/
def pySorted (l : List Nat) : List Nat := List.insertionSort (· ≤ ·) l

/-- Embedding of `statistics.median`: `data = sorted(data); n = len(data)`,
then the middle element when `n` is odd, else the mean of the two middle
elements. Only called on non-empty data (on empty data the library raises,
which the program never triggers). -/
def pyMedian (l : List Nat) : Rat :=
  let data := pySorted l
  let n := data.length
  if n % 2 = 1 then ((data.getD (n / 2) 0 : Nat) : Rat)
  else (((data.getD (n / 2 - 1) 0 : Nat) : Rat) + ((data.getD (n / 2) 0 : Nat) : Rat)) / 2

/-- The distinct values of `l` in order of first occurrence: the key order of
`collections.Counter(l)`. -/
def keysIn (l : List Nat) : List Nat :=
  l.foldl (fun acc x => if x ∈ acc then acc else acc ++ [x]) []

/-- The largest multiplicity of any value of `l`. -/
def maxFreq (l : List Nat) : Nat :=
  (keysIn l).foldl (fun m x => max m (l.count x)) 0

/-- Embedding of `Counter(l).most_common(1)` restricted to its first element:
the value of maximal multiplicity occurring first in `l` (ties are broken by
first occurrence, since `most_common` sorts stably by descending count over
the first-insertion key order); `none` exactly when `l` is empty. This is
what `statistics.mode` returns on Python >= 3.8. -/
def counter_most_common_head (l : List Nat) : Option Nat :=
  (keysIn l).find? (fun x => l.count x == maxFreq l)

/-- Embedding of the `mode_words` computation of the program under the current
standard library: `statistics.mode` raises `StatisticsError` only on empty
data (caught and turned into the marker, a branch the program cannot reach
with non-empty `word_counts`); on non-empty data it returns the
first-occurring value of maximal multiplicity, even when several values tie. -/
def mode_words (l : List Nat) : ModeOut :=
  match counter_most_common_head l with
  | some v => ModeOut.value v
  | none => ModeOut.noUnique

/-- The lines printed by the report section: the per-file block in dict
insertion order, then the four summary lines. -/
def reportLines (m : List (String × Nat)) (total : Nat) (mean median : Rat)
    (mode : ModeOut) : List OutLine :=
  OutLine.perFileHeader :: m.map (fun p => OutLine.perFileLine p.1 p.2)
    ++ [OutLine.summaryHeader, OutLine.totalLine total, OutLine.meanLine mean,
        OutLine.medianLine median, OutLine.modeLine mode]

/-- Embedding of `analyze_directory_word_counts(directory)` given the
filesystem's answers: a failed `os.listdir` propagates its exception with
nothing printed; otherwise the loop runs, and either the
`No readable files found.` line ends the run early or the report is
computed and printed. -/
def analyze_directory_word_counts (directory : String) (fs : ListDirResult) :
    AnalyzeResult × List OutLine :=
  match fs with
  | .err desc => (.raised desc, [])
  | .ok entries =>
    let st := runLoop directory entries
    if st.word_counts = [] then
      (.noFiles, st.outLines ++ [OutLine.noFilesLine])
    else
      let total := st.word_counts.sum
      let mean := pyMean st.word_counts
      let median := pyMedian st.word_counts
      let mode := mode_words st.word_counts
      (.report st.file_word_map total mean median mode,
        st.outLines ++ reportLines st.file_word_map total mean median mode)

/-- Embedding of Python's `str.strip()` on the character list: whitespace
dropped from the left, then from the right. -/
def pyStripData (l : List Char) : List Char :=
  ((l.dropWhile isPySpace).reverse.dropWhile isPySpace).reverse

/-- Embedding of `str.strip()` on strings. -/
def pyStrip (s : String) : String := String.mk (pyStripData s.data)

/-- Embedding of the `__main__` block: the interactively read line is
stripped and passed to `analyze_directory_word_counts`. -/
def main_run (inputLine : String) (fs : ListDirResult) :
    AnalyzeResult × List OutLine :=
  analyze_directory_word_counts (pyStrip inputLine) fs

/-- The entries of a listing that pass the `os.path.isfile` filter. -/
def includedEntries (entries : List Entry) : List Entry :=
  entries.filter (fun e => os_path_isfile e.node)

/-- The word count the loop records for an included entry. -/
def entryCount (dir : String) (e : Entry) : Nat :=
  (count_words_in_file (ospath_join dir e.name) e).1

/-- The lines the loop prints for an included entry. -/
def entryMsgs (dir : String) (e : Entry) : List OutLine :=
  (count_words_in_file (ospath_join dir e.name) e).2

/-- Whether an `AnalyzeResult` is a propagated exception. -/
def AnalyzeResult.isRaised : AnalyzeResult → Bool
  | .raised _ => true
  | _ => false

/-- Whether an `AnalyzeResult` is a completed report. -/
def AnalyzeResult.isReport : AnalyzeResult → Bool
  | .report _ _ _ _ _ => true
  | _ => false

/-- The per-file map of a completed report, `[]` otherwise. -/
def reportMap : AnalyzeResult → List (String × Nat)
  | .report m _ _ _ _ => m
  | _ => []

/-- The file names of a completed report, in printed order. -/
def reportNames (r : AnalyzeResult) : List String := (reportMap r).map Prod.fst

/-- The mode field of a completed report. -/
def modeOf : AnalyzeResult → Option ModeOut
  | .report _ _ _ _ m => some m
  | _ => none

/-- Modelled from the spec (glossary "Regular file" together with the amended
inclusion rule): an entry qualifies exactly when it is a regular file or a
chain of symbolic links resolving to one; directories, device files and
dangling links never qualify. -/
def resolvesRegular : FileNode → Bool
  | .regular => true
  | .symlink t => resolvesRegular t
  | _ => false

/-- Modelled from the spec: "for sorted counts, odd count → middle element;
even count → average of the two middle elements", stated over an already
sorted list. -/
def specMedian (s : List Nat) : Rat :=
  if s.length % 2 = 1 then ((s.getD (s.length / 2) 0 : Nat) : Rat)
  else (((s.getD (s.length / 2 - 1) 0 : Nat) : Rat) + ((s.getD (s.length / 2) 0 : Nat) : Rat)) / 2

/-- The length of the split list, both for a text and for a text extended on
the left by one non-whitespace character, agrees with the run count. -/
theorem splitWs_length_countRuns (s : List Char) :
    (splitWs s).length = countRunsAux false s ∧
      ∀ c, isPySpace c = false → (splitWs (c :: s)).length = 1 + countRunsAux true s := by
  induction s with
  | nil =>
    refine ⟨rfl, ?_⟩
    intro c hc
    simp [splitWs, countRunsAux, hc]
  | cons c' t ih =>
    obtain ⟨ih1, ih2⟩ := ih
    have p1 : (splitWs (c' :: t)).length = countRunsAux false (c' :: t) := by
      by_cases hc' : isPySpace c'
      · simp only [splitWs, countRunsAux, hc', if_true]
        exact ih1
      · have h2 := ih2 c' (by simpa using hc')
        simp only [countRunsAux, hc', if_false, Bool.false_eq_true, if_neg]
        simpa using h2
    refine ⟨p1, ?_⟩
    intro c hc
    by_cases hc' : isPySpace c'
    · have h1 : splitWs (c :: c' :: t) = [c] :: splitWs (c' :: t) := by
        simp only [splitWs]
        rw [if_neg (by simp [hc]), if_pos hc']
      have h3 : splitWs (c' :: t) = splitWs t := by
        simp only [splitWs]
        rw [if_pos hc']
      have h4 : countRunsAux true (c' :: t) = countRunsAux false t := by
        simp [countRunsAux, hc']
      rw [h1, h4, List.length_cons, h3, ih1]
      omega
    · have h2 := ih2 c' (by simpa using hc')
      rcases hr : splitWs (c' :: t) with _ | ⟨w, ws⟩
      · rw [hr] at h2
        simp only [List.length_nil] at h2
        omega
      · have h1 : splitWs (c :: c' :: t) = (c :: w) :: ws := by
          rw [splitWs]
          rw [if_neg (by simp [hc])]
          rw [hr]
          rw [if_neg hc']
        have h4 : countRunsAux true (c' :: t) = countRunsAux true t := by
          simp [countRunsAux, hc']
        rw [h1, h4, List.length_cons]
        rw [hr] at h2
        simpa using h2

/-- Splitting a text equals, in length, the number of maximal runs of
non-whitespace characters. -/
theorem splitWs_length_eq_countRuns (s : List Char) :
    (splitWs s).length = countRuns s :=
  (splitWs_length_countRuns s).1

/-- A text made of whitespace only has no run of non-whitespace characters. -/
theorem countRuns_all_space (s : List Char) (h : ∀ x ∈ s, isPySpace x = true) :
    countRuns s = 0 := by
  induction s with
  | nil => rfl
  | cons c t ih =>
    unfold countRuns countRunsAux
    rw [if_pos (h c (List.mem_cons_self c t))]
    exact ih (fun x hx => h x (List.mem_cons_of_mem c hx))

/-- Assigning a fresh key to a Python dict appends the pair. -/
theorem dictInsert_fresh (m : List (String × Nat)) (k : String) (v : Nat)
    (h : k ∉ m.map Prod.fst) : dictInsert m k v = m ++ [(k, v)] := by
  unfold dictInsert
  rw [if_neg]
  intro hany
  obtain ⟨p, hp, hpk⟩ := List.any_eq_true.mp hany
  exact h (List.mem_map.mpr ⟨p, hp, by simpa using hpk⟩)

/-- The loop appends, to the running `word_counts`, exactly the counts of the
entries passing the `os.path.isfile` filter, in enumeration order. -/
theorem foldl_processEntry_words (dir : String) (l : List Entry) :
    ∀ st : LoopState, (l.foldl (processEntry dir) st).word_counts
      = st.word_counts ++ (includedEntries l).map (entryCount dir) := by
  induction l with
  | nil => intro st; simp [includedEntries]
  | cons e t ih =>
    intro st
    by_cases h : os_path_isfile e.node
    · rw [List.foldl_cons, ih]
      simp [processEntry, h, includedEntries, List.filter_cons_of_pos, entryCount]
    · rw [List.foldl_cons, ih]
      simp [processEntry, h, includedEntries, List.filter_cons_of_neg]

/-- The loop appends, to the lines printed so far, exactly the error lines of
the included entries, in enumeration order. -/
theorem foldl_processEntry_out (dir : String) (l : List Entry) :
    ∀ st : LoopState, (l.foldl (processEntry dir) st).outLines
      = st.outLines ++ ((includedEntries l).map (entryMsgs dir)).flatten := by
  induction l with
  | nil => intro st; simp [includedEntries]
  | cons e t ih =>
    intro st
    by_cases h : os_path_isfile e.node
    · rw [List.foldl_cons, ih]
      simp [processEntry, h, includedEntries, List.filter_cons_of_pos, entryMsgs]
    · rw [List.foldl_cons, ih]
      simp [processEntry, h, includedEntries, List.filter_cons_of_neg]

/-- With the distinct names `os.listdir` guarantees, every dict assignment of
the loop hits a fresh key, so the dict grows by exactly the included
(name, count) pairs, in enumeration order. -/
theorem foldl_processEntry_map (dir : String) (l : List Entry) :
    ∀ st : LoopState, (l.map Entry.name).Nodup →
      (∀ e ∈ l, e.name ∉ st.file_word_map.map Prod.fst) →
      (l.foldl (processEntry dir) st).file_word_map
        = st.file_word_map ++ (includedEntries l).map (fun e => (e.name, entryCount dir e)) := by
  induction l with
  | nil => intro st _ _; simp [includedEntries]
  | cons e t ih =>
    intro st hnd hfresh
    rw [List.map_cons, List.nodup_cons] at hnd
    by_cases h : os_path_isfile e.node
    · have hfr : e.name ∉ st.file_word_map.map Prod.fst := hfresh e (List.mem_cons_self e t)
      have hstep : (processEntry dir st e).file_word_map
          = st.file_word_map ++ [(e.name, entryCount dir e)] := by
        simp only [processEntry, h, if_true]
        exact dictInsert_fresh _ _ _ hfr
      have hfresh2 : ∀ e2 ∈ t, e2.name ∉ (processEntry dir st e).file_word_map.map Prod.fst := by
        intro e2 he2
        rw [hstep, List.map_append, List.mem_append]
        rintro (hin | hin)
        · exact hfresh e2 (List.mem_cons_of_mem e he2) hin
        · simp only [List.map_cons, List.map_nil, List.mem_singleton] at hin
          exact hnd.1 (hin ▸ List.mem_map_of_mem Entry.name he2)
      rw [List.foldl_cons, ih (processEntry dir st e) hnd.2 hfresh2, hstep]
      simp [includedEntries, List.filter_cons_of_pos, h]
    · have hstep : processEntry dir st e = st := by
        simp [processEntry, h]
      rw [List.foldl_cons, hstep, ih st hnd.2 (fun e2 he2 => hfresh e2 (List.mem_cons_of_mem e he2))]
      simp [includedEntries, List.filter_cons_of_neg, h]

/-- The counts the loop collects. -/
theorem runLoop_words (dir : String) (entries : List Entry) :
    (runLoop dir entries).word_counts = (includedEntries entries).map (entryCount dir) := by
  unfold runLoop
  rw [foldl_processEntry_words]
  rfl

/-- The lines the loop prints. -/
theorem runLoop_out (dir : String) (entries : List Entry) :
    (runLoop dir entries).outLines = ((includedEntries entries).map (entryMsgs dir)).flatten := by
  unfold runLoop
  rw [foldl_processEntry_out]
  rfl

/-- The dict the loop builds, given distinct names. -/
theorem runLoop_map (dir : String) (entries : List Entry)
    (hnd : (entries.map Entry.name).Nodup) :
    (runLoop dir entries).file_word_map
      = (includedEntries entries).map (fun e => (e.name, entryCount dir e)) := by
  unfold runLoop
  rw [foldl_processEntry_map dir entries _ hnd (by intro e _ h; simp at h)]
  rfl

/-- Joining a fixed directory with two names yields equal paths only for equal
names. -/
theorem ospath_join_inj (dir : String) {n₁ n₂ : String}
    (h : ospath_join dir n₁ = ospath_join dir n₂) : n₁ = n₂ := by
  unfold ospath_join at h
  by_cases h0 : dir = ""
  · rw [if_pos h0, if_pos h0] at h
    exact h
  · by_cases h1 : dir.endsWith "/"
    · rw [if_neg h0, if_neg h0, if_pos h1, if_pos h1] at h
      have hd := congrArg String.data h
      rw [String.data_append, String.data_append] at hd
      exact String.ext (List.append_cancel_left hd)
    · rw [if_neg h0, if_neg h0, if_neg h1, if_neg h1] at h
      have hd := congrArg String.data h
      rw [String.data_append, String.data_append, String.data_append,
        String.data_append] at hd
      exact String.ext (List.append_cancel_left hd)

/-- Dropping a whitespace prefix in front of an appended whitespace block. -/
theorem dropWhile_append_all {p : Char → Bool} {ws l : List Char}
    (h : ∀ x ∈ ws, p x = true) :
    List.dropWhile p (ws ++ l) = List.dropWhile p l := by
  rw [List.dropWhile_append]
  rw [List.dropWhile_eq_nil_iff.mpr h]
  rfl

/-- Stripping ignores a leading all-whitespace block. -/
theorem pyStripData_append_left {ws l : List Char}
    (h : ∀ x ∈ ws, isPySpace x = true) :
    pyStripData (ws ++ l) = pyStripData l := by
  unfold pyStripData
  rw [dropWhile_append_all h]

/-- Stripping ignores a trailing all-whitespace block. -/
theorem pyStripData_append_right {l ws : List Char}
    (h : ∀ x ∈ ws, isPySpace x = true) :
    pyStripData (l ++ ws) = pyStripData l := by
  unfold pyStripData
  rw [List.dropWhile_append]
  by_cases hl : List.dropWhile isPySpace l = []
  · rw [hl]
    simp only [List.isEmpty_nil, if_true]
    rw [List.dropWhile_eq_nil_iff.mpr h]
  · rw [if_neg (by simpa [List.isEmpty_iff] using hl)]
    rw [List.reverse_append]
    rw [dropWhile_append_all (fun x hx => h x (List.mem_reverse.mp hx))]

/-- An entry whose read fails prints exactly its error line. -/
theorem entryMsgs_err (dir : String) (e : Entry) (d : String)
    (hr : e.readResult = ReadResult.err d) :
    entryMsgs dir e = [OutLine.errorLine (ospath_join dir e.name) d] := by
  simp [entryMsgs, count_words_in_file, hr]

/-- An entry whose read fails is recorded with count 0. -/
theorem entryCount_err (dir : String) (e : Entry) (d : String)
    (hr : e.readResult = ReadResult.err d) : entryCount dir e = 0 := by
  simp [entryCount, count_words_in_file, hr]

/-- An entry whose read succeeds is recorded with the length of the split. -/
theorem entryCount_ok (dir : String) (e : Entry) (text : String)
    (hr : e.readResult = ReadResult.ok text) :
    entryCount dir e = (splitWs text.data).length := by
  simp [entryCount, count_words_in_file, hr]

/-- An entry with a different name never prints the error line of the given
name, whatever its read outcome. -/
theorem count_errLine_single (dir nm d : String) (x : Entry)
    (hne : x.name ≠ nm) :
    (entryMsgs dir x).count (OutLine.errorLine (ospath_join dir nm) d) = 0 := by
  rcases hxr : x.readResult with text | desc
  · simp [entryMsgs, count_words_in_file, hxr]
  · rw [entryMsgs_err dir x desc hxr]
    have hpath : ospath_join dir x.name ≠ ospath_join dir nm :=
      fun hc => hne (ospath_join_inj dir hc)
    simp [List.count_cons, hpath]

/-- A block of entries none of which bears the given name prints that name's
error line zero times. -/
theorem count_errLine_flatten_zero (dir nm d : String) (t : List Entry)
    (h : ∀ e ∈ t, e.name ≠ nm) :
    ((t.map (entryMsgs dir)).flatten).count (OutLine.errorLine (ospath_join dir nm) d) = 0 := by
  induction t with
  | nil => rfl
  | cons x xs ih =>
    rw [List.map_cons, List.flatten_cons, List.count_append]
    rw [count_errLine_single dir nm d x (h x (List.mem_cons_self x xs))]
    rw [ih (fun e he => h e (List.mem_cons_of_mem x he))]

/-- Under distinct names, a failing entry's error line appears exactly once in
the lines printed for a block of entries containing it. -/
theorem count_errLine_flatten_one (dir d : String) (L : List Entry) (e : Entry)
    (hnd : (L.map Entry.name).Nodup) (he : e ∈ L)
    (hr : e.readResult = ReadResult.err d) :
    ((L.map (entryMsgs dir)).flatten).count (OutLine.errorLine (ospath_join dir e.name) d) = 1 := by
  induction L with
  | nil => cases he
  | cons x xs ih =>
    rw [List.map_cons, List.flatten_cons, List.count_append]
    rw [List.map_cons, List.nodup_cons] at hnd
    rcases List.mem_cons.mp he with rfl | hmem
    · rw [entryMsgs_err dir e d hr]
      rw [count_errLine_flatten_zero dir e.name d xs
        (fun e2 he2 hn => hnd.1 (hn ▸ List.mem_map_of_mem Entry.name he2))]
      simp [List.count_cons]
    · have hxne : x.name ≠ e.name :=
        fun hc => hnd.1 (hc ▸ List.mem_map_of_mem Entry.name hmem)
      rw [count_errLine_single dir e.name d x hxne]
      rw [ih hnd.2 hmem]

/-- The report section never prints an error line. -/
theorem count_errLine_reportLines (p d : String) (m : List (String × Nat))
    (total : Nat) (mean median : Rat) (mode : ModeOut) :
    (reportLines m total mean median mode).count (OutLine.errorLine p d) = 0 := by
  rw [List.count_eq_zero]
  intro hmem
  simp [reportLines] at hmem

/-- C5: for every readable UTF-8 file, `count_words_in_file` returns the
number of maximal runs of non-whitespace characters of the file's text (a
non-negative integer by its type), and in particular 0 when the text is
empty or all whitespace. -/
theorem c5_count_words_is_run_count (filepath nm : String) (k : FileNode)
    (text : String) :
    (count_words_in_file filepath ⟨nm, k, ReadResult.ok text⟩).1 = countRuns text.data
      ∧ (text.data.all isPySpace = true →
          (count_words_in_file filepath ⟨nm, k, ReadResult.ok text⟩).1 = 0) := by
  have hmain : (count_words_in_file filepath ⟨nm, k, ReadResult.ok text⟩).1
      = countRuns text.data := by
    simpa [count_words_in_file] using splitWs_length_eq_countRuns text.data
  refine ⟨hmain, fun h => ?_⟩
  rw [hmain]
  exact countRuns_all_space text.data (List.all_eq_true.mp h)

/-- C5 witness: a three-character all-whitespace file counts 0 words. -/
theorem c5_count_words_is_run_count_witness :
    (count_words_in_file "d/a" ⟨"a", FileNode.regular, ReadResult.ok " \t "⟩).1 = 0 :=
  (c5_count_words_is_run_count "d/a" "a" FileNode.regular " \t ").2 (by decide)

/-- C6: a directory whose entries all fail the `os.path.isfile` test makes the
analysis print exactly the single `No readable files found.` line and end
without any per-file or summary section. -/
theorem c6_no_readable_files (dir : String) (entries : List Entry)
    (h : ∀ e ∈ entries, os_path_isfile e.node = false) :
    analyze_directory_word_counts dir (ListDirResult.ok entries)
      = (AnalyzeResult.noFiles, [OutLine.noFilesLine]) := by
  have hinc : includedEntries entries = [] :=
    List.filter_eq_nil.mpr (fun e he => by simp [h e he])
  have hw : (runLoop dir entries).word_counts = [] := by
    rw [runLoop_words, hinc]
    rfl
  have ho : (runLoop dir entries).outLines = [] := by
    rw [runLoop_out, hinc]
    rfl
  simp only [analyze_directory_word_counts]
  rw [if_pos hw, ho]
  rfl

/-- C6 witness: a directory holding only a subdirectory and a device file. -/
theorem c6_no_readable_files_witness :
    analyze_directory_word_counts "d" (ListDirResult.ok
        [⟨"sub", FileNode.directory, ReadResult.ok ""⟩,
         ⟨"tty", FileNode.device, ReadResult.ok ""⟩])
      = (AnalyzeResult.noFiles, [OutLine.noFilesLine]) :=
  c6_no_readable_files "d"
    [⟨"sub", FileNode.directory, ReadResult.ok ""⟩,
     ⟨"tty", FileNode.device, ReadResult.ok ""⟩] (by decide)

/-- C2 counterexample: on a path `os.listdir` cannot list, the exception
propagates out of `analyze_directory_word_counts` with nothing printed,
refuting the claim that no input lets an exception escape. -/
theorem c2_counterexample :
    (analyze_directory_word_counts "missing"
        (ListDirResult.err "No such file or directory: 'missing'")).1
      = AnalyzeResult.raised "No such file or directory: 'missing'" := rfl

/-- C2 amended: once `os.listdir` itself succeeds, no exception propagates:
per-file read failures degrade to a printed message with a zero-count
substitution, and the empty case terminates gracefully. -/
theorem c2_no_raise_when_listable (dir : String) (entries : List Entry) :
    ((analyze_directory_word_counts dir (ListDirResult.ok entries)).1).isRaised
      = false := by
  simp only [analyze_directory_word_counts]
  by_cases h : (runLoop dir entries).word_counts = []
  · rw [if_pos h]
    rfl
  · rw [if_neg h]
    rfl

/-- C3 counterexample: a symbolic link resolving to a regular file passes
`os.path.isfile` and does appear in the per-file report, refuting the claim
that every symbolic link is excluded. -/
theorem c3_counterexample :
    reportNames (analyze_directory_word_counts "d" (ListDirResult.ok
        [⟨"ln", FileNode.symlink FileNode.regular, ReadResult.ok "hello world"⟩])).1
      = ["ln"] := by decide

/-- The `os.path.isfile` test agrees with the qualifying predicate of the
amended claim. -/
theorem os_path_isfile_eq_resolvesRegular (n : FileNode) :
    os_path_isfile n = resolvesRegular n := by
  induction n with
  | symlink t ih => simpa [os_path_isfile, resolvesRegular] using ih
  | regular => rfl
  | directory => rfl
  | device => rfl
  | brokenLink => rfl

/-- C3 amended: the per-file report lists, in order, exactly the entries that
are regular files or symbolic-link chains resolving to regular files;
subdirectories, device files and dangling links never appear. -/
theorem c3_report_lists_resolved_regular (dir : String) (entries : List Entry)
    (hnd : (entries.map Entry.name).Nodup) :
    reportNames (analyze_directory_word_counts dir (ListDirResult.ok entries)).1
      = (entries.filter (fun e => resolvesRegular e.node)).map Entry.name := by
  have hfilt : entries.filter (fun e => resolvesRegular e.node)
      = includedEntries entries :=
    List.filter_congr (fun e _ => (os_path_isfile_eq_resolvesRegular e.node).symm)
  rw [hfilt]
  simp only [analyze_directory_word_counts]
  by_cases h : (runLoop dir entries).word_counts = []
  · rw [if_pos h]
    have hinc : includedEntries entries = [] := by
      rw [runLoop_words] at h
      exact List.map_eq_nil.mp h
    rw [hinc]
    rfl
  · rw [if_neg h]
    show ((runLoop dir entries).file_word_map).map Prod.fst = _
    rw [runLoop_map dir entries hnd, List.map_map]
    rfl

/-- C3 amended witness: a regular file, a subdirectory and a link to a regular
file; the report lists the file and the link. -/
theorem c3_report_lists_resolved_regular_witness :
    reportNames (analyze_directory_word_counts "d" (ListDirResult.ok
        [⟨"a.txt", FileNode.regular, ReadResult.ok "one"⟩,
         ⟨"sub", FileNode.directory, ReadResult.ok ""⟩,
         ⟨"ln", FileNode.symlink FileNode.regular, ReadResult.ok "x y"⟩])).1
      = ([⟨"a.txt", FileNode.regular, ReadResult.ok "one"⟩,
          ⟨"sub", FileNode.directory, ReadResult.ok ""⟩,
          ⟨"ln", FileNode.symlink FileNode.regular, ReadResult.ok "x y"⟩].filter
            (fun e => resolvesRegular e.node)).map Entry.name :=
  c3_report_lists_resolved_regular "d" _ (by decide)

/-- C1: at the spec's own tie example (per-file counts 3 and 2, each occurring
once), the embedded program reports the first tied value 3 as the mode, not
the `No unique mode` marker: on Python >= 3.8 `statistics.mode` no longer
raises `StatisticsError` on ties, so the handler guarding the marker is
unreachable for non-empty data. -/
theorem c1_mode_tie_reports_first_value :
    modeOf (analyze_directory_word_counts "d" (ListDirResult.ok
        [⟨"a.txt", FileNode.regular, ReadResult.ok "one two three"⟩,
         ⟨"b.txt", FileNode.regular, ReadResult.ok "four five"⟩])).1
      = some (ModeOut.value 3) := by decide

/-- C9: after processing any prefix of the enumeration, the dict and the
ordered count sequence have the same number of entries, and (names being
distinct within one listing) the multiset of the dict's values equals the
multiset of the sequence. -/
theorem c9_map_and_counts_in_lockstep (dir : String) (entries : List Entry)
    (hnd : (entries.map Entry.name).Nodup) (k : Nat) :
    ((runLoop dir (entries.take k)).file_word_map).length
        = ((runLoop dir (entries.take k)).word_counts).length
      ∧ (((runLoop dir (entries.take k)).file_word_map.map Prod.snd : List Nat) : Multiset Nat)
        = (((runLoop dir (entries.take k)).word_counts : List Nat) : Multiset Nat) := by
  have hndk : ((entries.take k).map Entry.name).Nodup := by
    rw [List.map_take]
    exact List.Nodup.sublist (List.take_sublist k (entries.map Entry.name)) hnd
  have hsnd : (runLoop dir (entries.take k)).file_word_map.map Prod.snd
      = (runLoop dir (entries.take k)).word_counts := by
    rw [runLoop_map dir (entries.take k) hndk, runLoop_words, List.map_map]
    rfl
  constructor
  · have := congrArg List.length hsnd
    rw [List.length_map] at this
    exact this
  · rw [hsnd]

/-- C9 witness: the two-file directory of the spec's example, after the first
step of the loop. -/
theorem c9_map_and_counts_in_lockstep_witness :
    ((runLoop "d" ([⟨"a.txt", FileNode.regular, ReadResult.ok "one two three"⟩,
        ⟨"b.txt", FileNode.regular, ReadResult.ok "four five"⟩].take 1)).file_word_map).length
        = ((runLoop "d" ([⟨"a.txt", FileNode.regular, ReadResult.ok "one two three"⟩,
        ⟨"b.txt", FileNode.regular, ReadResult.ok "four five"⟩].take 1)).word_counts).length
      ∧ (((runLoop "d" ([⟨"a.txt", FileNode.regular, ReadResult.ok "one two three"⟩,
        ⟨"b.txt", FileNode.regular, ReadResult.ok "four five"⟩].take 1)).file_word_map.map Prod.snd : List Nat) : Multiset Nat)
        = (((runLoop "d" ([⟨"a.txt", FileNode.regular, ReadResult.ok "one two three"⟩,
        ⟨"b.txt", FileNode.regular, ReadResult.ok "four five"⟩].take 1)).word_counts : List Nat) : Multiset Nat) :=
  c9_map_and_counts_in_lockstep "d"
    [⟨"a.txt", FileNode.regular, ReadResult.ok "one two three"⟩,
     ⟨"b.txt", FileNode.regular, ReadResult.ok "four five"⟩] (by decide) 1

/-- C7: whenever the analysis completes a report, the reported total is the
exact sum of the per-file counts and the reported mean is exactly the total
divided by the number of files. -/
theorem c7_total_sum_mean_quotient (dir : String) (entries : List Entry)
    (hnd : (entries.map Entry.name).Nodup)
    (fm : List (String × Nat)) (total : Nat) (mean median : Rat)
    (mode : ModeOut) (out : List OutLine)
    (h : analyze_directory_word_counts dir (ListDirResult.ok entries)
      = (AnalyzeResult.report fm total mean median mode, out)) :
    total = (fm.map Prod.snd).sum ∧ mean = (total : Rat) / (fm.length : Rat) := by
  simp only [analyze_directory_word_counts] at h
  by_cases hw : (runLoop dir entries).word_counts = []
  · rw [if_pos hw] at h
    exact absurd (congrArg Prod.fst h) (by simp)
  · rw [if_neg hw] at h
    rw [Prod.mk.injEq] at h
    obtain ⟨hres, -⟩ := h
    rw [AnalyzeResult.report.injEq] at hres
    obtain ⟨hfm, htot, hmean, -, -⟩ := hres
    have hsnd : fm.map Prod.snd = (runLoop dir entries).word_counts := by
      rw [← hfm, runLoop_map dir entries hnd, runLoop_words, List.map_map]
      rfl
    have hlen : fm.length = (runLoop dir entries).word_counts.length := by
      have := congrArg List.length hsnd
      rwa [List.length_map] at this
    constructor
    · rw [hsnd, htot]
    · rw [← hmean, ← htot, hlen]
      rfl

/-- C7 witness: the spec's example directory (counts 3 and 2). -/
theorem c7_total_sum_mean_quotient_witness :
    (5 : Nat) = (([("a.txt", 3), ("b.txt", 2)] : List (String × Nat)).map Prod.snd).sum
      ∧ pyMean [3, 2] = ((5 : Nat) : Rat) / ((([("a.txt", 3), ("b.txt", 2)] : List (String × Nat)).length : Nat) : Rat) :=
  c7_total_sum_mean_quotient "d"
    [⟨"a.txt", FileNode.regular, ReadResult.ok "one two three"⟩,
     ⟨"b.txt", FileNode.regular, ReadResult.ok "four five"⟩]
    (by decide) [("a.txt", 3), ("b.txt", 2)] 5 (pyMean [3, 2]) (pyMedian [3, 2])
    (mode_words [3, 2])
    ([] ++ reportLines [("a.txt", 3), ("b.txt", 2)] 5 (pyMean [3, 2]) (pyMedian [3, 2])
      (mode_words [3, 2])) rfl

/-- C8: whenever the analysis completes a report, the reported median is the
standard median of the counts: there is a sorted rearrangement of the
per-file counts whose middle element (odd length) or mean of the two middle
elements (even length) is the reported value. -/
theorem c8_median_standard_definition (dir : String) (entries : List Entry)
    (hnd : (entries.map Entry.name).Nodup)
    (fm : List (String × Nat)) (total : Nat) (mean median : Rat)
    (mode : ModeOut) (out : List OutLine)
    (h : analyze_directory_word_counts dir (ListDirResult.ok entries)
      = (AnalyzeResult.report fm total mean median mode, out)) :
    ∃ s : List Nat, s.Perm (fm.map Prod.snd) ∧ List.Sorted (· ≤ ·) s
      ∧ median = specMedian s := by
  simp only [analyze_directory_word_counts] at h
  by_cases hw : (runLoop dir entries).word_counts = []
  · rw [if_pos hw] at h
    exact absurd (congrArg Prod.fst h) (by simp)
  · rw [if_neg hw] at h
    rw [Prod.mk.injEq] at h
    obtain ⟨hres, -⟩ := h
    rw [AnalyzeResult.report.injEq] at hres
    obtain ⟨hfm, -, -, hmed, -⟩ := hres
    have hsnd : fm.map Prod.snd = (runLoop dir entries).word_counts := by
      rw [← hfm, runLoop_map dir entries hnd, runLoop_words, List.map_map]
      rfl
    refine ⟨pySorted ((runLoop dir entries).word_counts), ?_, ?_, ?_⟩
    · rw [hsnd]
      exact List.perm_insertionSort (· ≤ ·) _
    · exact List.sorted_insertionSort (· ≤ ·) _
    · rw [← hmed]
      rfl

/-- C8 witness: the spec's example directory (counts 3 and 2). -/
theorem c8_median_standard_definition_witness :
    ∃ s : List Nat, s.Perm (([("a.txt", 3), ("b.txt", 2)] : List (String × Nat)).map Prod.snd)
      ∧ List.Sorted (· ≤ ·) s ∧ pyMedian [3, 2] = specMedian s :=
  c8_median_standard_definition "d"
    [⟨"a.txt", FileNode.regular, ReadResult.ok "one two three"⟩,
     ⟨"b.txt", FileNode.regular, ReadResult.ok "four five"⟩]
    (by decide) [("a.txt", 3), ("b.txt", 2)] 5 (pyMean [3, 2]) (pyMedian [3, 2])
    (mode_words [3, 2])
    ([] ++ reportLines [("a.txt", 3), ("b.txt", 2)] 5 (pyMean [3, 2]) (pyMedian [3, 2])
      (mode_words [3, 2])) rfl

/-- C4: a file whose read or decode fails is reported with exactly one
`Error reading <path>: <desc>` line, still listed in the per-file report
with count 0, and still counted among the files (so it contributes zero to
the total and one to the file count). -/
theorem c4_failing_file_still_counted (dir d : String) (entries : List Entry)
    (e : Entry) (hnd : (entries.map Entry.name).Nodup) (he : e ∈ entries)
    (hf : os_path_isfile e.node = true)
    (hr : e.readResult = ReadResult.err d) :
    ((analyze_directory_word_counts dir (ListDirResult.ok entries)).1).isReport = true
      ∧ (e.name, 0) ∈ reportMap (analyze_directory_word_counts dir (ListDirResult.ok entries)).1
      ∧ (reportMap (analyze_directory_word_counts dir (ListDirResult.ok entries)).1).length
          = (includedEntries entries).length
      ∧ ((analyze_directory_word_counts dir (ListDirResult.ok entries)).2).count
          (OutLine.errorLine (ospath_join dir e.name) d) = 1 := by
  have hein : e ∈ includedEntries entries := List.mem_filter.mpr ⟨he, hf⟩
  have hw : (runLoop dir entries).word_counts ≠ [] := by
    rw [runLoop_words]
    intro hcon
    exact List.ne_nil_of_mem hein (List.map_eq_nil.mp hcon)
  have hana : analyze_directory_word_counts dir (ListDirResult.ok entries)
      = (AnalyzeResult.report (runLoop dir entries).file_word_map
          (runLoop dir entries).word_counts.sum
          (pyMean (runLoop dir entries).word_counts)
          (pyMedian (runLoop dir entries).word_counts)
          (mode_words (runLoop dir entries).word_counts),
        (runLoop dir entries).outLines
          ++ reportLines (runLoop dir entries).file_word_map
              (runLoop dir entries).word_counts.sum
              (pyMean (runLoop dir entries).word_counts)
              (pyMedian (runLoop dir entries).word_counts)
              (mode_words (runLoop dir entries).word_counts)) := by
    simp only [analyze_directory_word_counts]
    rw [if_neg hw]
  have hndinc : ((includedEntries entries).map Entry.name).Nodup :=
    List.Nodup.sublist (List.Sublist.map Entry.name (List.filter_sublist entries)) hnd
  rw [hana]
  refine ⟨rfl, ?_, ?_, ?_⟩
  · show (e.name, 0) ∈ (runLoop dir entries).file_word_map
    rw [runLoop_map dir entries hnd]
    exact List.mem_map.mpr ⟨e, hein, by rw [entryCount_err dir e d hr]⟩
  · show ((runLoop dir entries).file_word_map).length = _
    rw [runLoop_map dir entries hnd, List.length_map]
  · rw [List.count_append, runLoop_out]
    rw [count_errLine_flatten_one dir d (includedEntries entries) e hndinc hein hr]
    rw [count_errLine_reportLines]

/-- C4 witness: a directory holding one unreadable and one readable file. -/
theorem c4_failing_file_still_counted_witness :
    ((analyze_directory_word_counts "d" (ListDirResult.ok
        [⟨"bad.bin", FileNode.regular, ReadResult.err "invalid utf-8"⟩,
         ⟨"a.txt", FileNode.regular, ReadResult.ok "hi there"⟩])).1).isReport = true
      ∧ ("bad.bin", 0) ∈ reportMap (analyze_directory_word_counts "d" (ListDirResult.ok
          [⟨"bad.bin", FileNode.regular, ReadResult.err "invalid utf-8"⟩,
           ⟨"a.txt", FileNode.regular, ReadResult.ok "hi there"⟩])).1
      ∧ (reportMap (analyze_directory_word_counts "d" (ListDirResult.ok
          [⟨"bad.bin", FileNode.regular, ReadResult.err "invalid utf-8"⟩,
           ⟨"a.txt", FileNode.regular, ReadResult.ok "hi there"⟩])).1).length
          = (includedEntries
              [⟨"bad.bin", FileNode.regular, ReadResult.err "invalid utf-8"⟩,
               ⟨"a.txt", FileNode.regular, ReadResult.ok "hi there"⟩]).length
      ∧ ((analyze_directory_word_counts "d" (ListDirResult.ok
          [⟨"bad.bin", FileNode.regular, ReadResult.err "invalid utf-8"⟩,
           ⟨"a.txt", FileNode.regular, ReadResult.ok "hi there"⟩])).2).count
          (OutLine.errorLine (ospath_join "d" "bad.bin") "invalid utf-8") = 1 :=
  c4_failing_file_still_counted "d" "invalid utf-8"
    [⟨"bad.bin", FileNode.regular, ReadResult.err "invalid utf-8"⟩,
     ⟨"a.txt", FileNode.regular, ReadResult.ok "hi there"⟩]
    ⟨"bad.bin", FileNode.regular, ReadResult.err "invalid utf-8"⟩
    (by decide) (by simp) rfl rfl

/-- C10: the interactively entered path is stripped of surrounding
whitespace, so a path surrounded by whitespace is analyzed exactly like the
bare path. -/
theorem c10_surrounding_whitespace_stripped (p ws1 ws2 : String)
    (h1 : ws1.data.all isPySpace = true) (h2 : ws2.data.all isPySpace = true)
    (fs : ListDirResult) :
    pyStrip (ws1 ++ p ++ ws2) = pyStrip p
      ∧ main_run (ws1 ++ p ++ ws2) fs = main_run p fs := by
  have hstrip : pyStrip (ws1 ++ p ++ ws2) = pyStrip p := by
    unfold pyStrip
    have hd : (ws1 ++ p ++ ws2).data = ws1.data ++ (p.data ++ ws2.data) := by
      rw [String.data_append, String.data_append, List.append_assoc]
    rw [hd, pyStripData_append_left (List.all_eq_true.mp h1),
      pyStripData_append_right (List.all_eq_true.mp h2)]
  refine ⟨hstrip, ?_⟩
  unfold main_run
  rw [hstrip]

/-- C10 witness: `"  /tmp/x \t"` is analyzed like `"/tmp/x"`. -/
theorem c10_surrounding_whitespace_stripped_witness :
    pyStrip ("  " ++ "/tmp/x" ++ " \t") = pyStrip "/tmp/x"
      ∧ main_run ("  " ++ "/tmp/x" ++ " \t") (ListDirResult.ok [])
          = main_run "/tmp/x" (ListDirResult.ok []) :=
  c10_surrounding_whitespace_stripped "/tmp/x" "  " " \t" (by decide) (by decide)
    (ListDirResult.ok [])
